import Mathlib

/-!
Verification of the format-selection and download-proxy pipeline of the
yt-extractor repository (src/app.py), via a shallow embedding in Lean 4.

Modelling conventions:
* Python dict fields that may be missing (or set to `None`) are `Option` fields;
  the code accesses them with `dict.get`, which yields `None` for a missing key.
* Python truthiness on strings (`if not s`) treats both `None` and `""` as
  falsy; the helpers `pyOr`, `pyOrD`, `truthyStr` mirror `a or b` and `if not a`.
* `str.strip()` is modelled over the ASCII whitespace characters; the inputs
  reaching `strip` in the modelled paths contain no other whitespace.
* `str.lower()` is modelled with `Char.toLower` (ASCII case mapping; protocol
  and extension tags in the source are ASCII).
* Numeric sizes/bitrates use exact arithmetic (`Int`, `Rat`).  Python's
  `f"{x:.1f}"` rounds half-to-even on the binary float; on the values produced
  by `human_size` (an integer divided by a power of 1024, exact in binary
  floating point for inputs below 2^53) this agrees with exact half-even
  rounding of the rational value, which is what `fmt1` implements.
* The external yt-dlp collaborator (`YoutubeDL(...).extract_info`) is an
  opaque function parameter `ydl : String → ExtractOutcome`: it either raises
  an exception with a message or returns an optional info dict.
-/

namespace YtX

/-! ## Python string primitives -/

/-- ASCII whitespace recognised by Python `str.strip()` (space, tab, LF, CR,
vertical tab, form feed). -/
def pyWs (c : Char) : Bool :=
  c == ' ' || c == '\t' || c == '\n' || c == '\r' ||
  c == Char.ofNat 11 || c == Char.ofNat 12

/-- Source: `str.strip()` on a character list: drop leading and trailing whitespace. -/
def pyStripList (l : List Char) : List Char :=
  ((l.dropWhile pyWs).reverse.dropWhile pyWs).reverse

/-- Source: `str.strip()`. -/
def pyStripStr (s : String) : String :=
  String.mk (pyStripList s.toList)

/-- Source: `str.lower()` (ASCII). -/
def pyLower (s : String) : String :=
  String.mk (s.toList.map Char.toLower)

/-- Source: `n` occurs at the start of `h` (list version of `str.startswith`). -/
def subAt : List Char → List Char → Bool
  | [], _ => true
  | _ :: _, [] => false
  | a :: n, b :: h => a == b && subAt n h

/-- Source: `s.startswith(p)`. -/
def startsWithB (s p : String) : Bool :=
  subAt p.toList s.toList

/-- Source: `needle in hay` on character lists. -/
def containsSubList (needle : List Char) : List Char → Bool
  | [] => subAt needle []
  | c :: t => subAt needle (c :: t) || containsSubList needle t

/-- Python substring test `needle in hay`. -/
def containsSub (hay needle : String) : Bool :=
  containsSubList needle.toList hay.toList

/-- Python `a or b` on optional strings (`None` and `""` are falsy; the second
operand is returned unevaluated-truthiness, exactly as in Python). -/
def pyOr (a b : Option String) : Option String :=
  match a with
  | some s => if s = "" then b else some s
  | none => b

/-- Python `a or d` where `d` is a (truthy) string default. -/
def pyOrD (a : Option String) (d : String) : String :=
  match a with
  | some s => if s = "" then d else s
  | none => d

/-- Python truthiness of an optional string. -/
def truthyStr (a : Option String) : Bool :=
  match a with
  | some s => s != ""
  | none => false

/-- Python `a or b` on optional integers (`None` and `0` are falsy). -/
def pyOrInt (a b : Option Int) : Option Int :=
  match a with
  | some n => if n = 0 then b else some n
  | none => b

/-! ## Data model: candidate formats -/

/-- One yt-dlp format dict, restricted to the keys read by the program.
A missing key (or a `None` value) is `none`. -/
structure CandidateFormat where
  url : Option String
  protocol : Option String
  acodec : Option String
  vcodec : Option String
  height : Option Int
  tbr : Option ℚ
  filesize : Option Int
  filesize_approx : Option Int
  ext : Option String
deriving DecidableEq

/-! ## human_size -/

/-- The argument passed to `human_size`: Python `None`, an integer, or a value
on which `int()` raises (`human_size` catches that and returns `""`).  A value
on which `int()` succeeds behaves like the resulting integer. -/
inductive SizeInput where
  | none
  | int (n : Int)
  | nonNumeric
deriving DecidableEq

/-- Round-half-even of `t / den` on naturals (`den > 0`): the rounding used by
Python float formatting, applied to the exact value. -/
def rheNat (t den : Nat) : Nat :=
  let q := t / den
  let r := t % den
  if 2 * r < den then q
  else if den < 2 * r then q + 1
  else if q % 2 = 0 then q else q + 1

/-- Python `f"{x:.1f}"` for the exact value `num / den` (`den > 0`):
one digit after the decimal point, half-even rounding. -/
def fmt1 (num den : Int) : String :=
  let t10 := rheNat (10 * num.natAbs) den.natAbs
  (if num < 0 then "-" else "") ++ toString (t10 / 10) ++ "." ++ toString (t10 % 10)

/-- The `for unit in ['B','KB','MB','GB','TB']` loop of `human_size`.
The running value `n` of the Python code is represented exactly as
`num / den`; each iteration multiplies `den` by 1024 (`n /= 1024.0`),
and `n < 1024` is `num < 1024 * den`.  After the loop the value is
formatted with the `PB` unit. -/
def human_size_loop (num : Int) (den : Int) : List String → String
  | [] => fmt1 num den ++ "PB"
  | u :: rest =>
    if num < 1024 * den then fmt1 num den ++ u
    else human_size_loop num (1024 * den) rest

/-- Source: `human_size` from src/app.py: falsy input (`None`/`0`) and input on which
`int()` raises yield `""`; otherwise scale by 1024 across B/KB/MB/GB/TB/PB. -/
def human_size : SizeInput → String
  | .none => ""
  | .nonNumeric => ""
  | .int n =>
    if n = 0 then ""
    else human_size_loop n 1 ["B", "KB", "MB", "GB", "TB"]

/-! ## is_downloadable_file -/

/-- Source: `is_downloadable_file` from src/app.py, line for line:
missing url (or `""`), a manifest marker in the lower-cased protocol,
missing/`"none"` codecs, or a non-empty protocol not starting with `"http"`
all reject the format. -/
def is_downloadable_file (fmt : CandidateFormat) : Bool :=
  let url := fmt.url.getD ""
  if url = "" then false
  else
    let proto := pyLower (fmt.protocol.getD "")
    if containsSub proto "m3u8" || containsSub proto "dash" || containsSub proto "mpd" then false
    else
      let ac := fmt.acodec.getD ""
      if ac = "" ∨ ac = "none" then false
      else
        let vc := fmt.vcodec.getD ""
        if vc = "" ∨ vc = "none" then false
        else if proto ≠ "" ∧ ¬ startsWithB proto "http" then false
        else true

/-! ## choose_best_file -/

/-- Source: `int(float(q))`: truncation toward zero of a rational. -/
def truncRat (q : ℚ) : Int :=
  Int.tdiv q.num (q.den : Int)

/-- The score `h * 1000 + tbr` computed by `choose_best_file`
(`h = int(f.get("height") or 0)`, `tbr = int(float(f.get("tbr") or 0))`). -/
def score_of (f : CandidateFormat) : Int :=
  (f.height.getD 0) * 1000 + truncRat (f.tbr.getD 0)

/-- The loop of `choose_best_file`, with accumulators `best` and `best_score`
(initially `None` and `-1`). -/
def choose_best_go : List CandidateFormat → Option CandidateFormat → Int → Option CandidateFormat
  | [], best, _ => best
  | f :: rest, best, best_score =>
    if is_downloadable_file f then
      if best_score < score_of f then choose_best_go rest (some f) (score_of f)
      else choose_best_go rest best best_score
    else choose_best_go rest best best_score

/-- Source: `choose_best_file` from src/app.py. -/
def choose_best_file (formats : List CandidateFormat) : Option CandidateFormat :=
  choose_best_go formats none (-1)

/-! ## fmt_to_file -/

/-- The `file` object of a response entry. -/
structure SelectedFile where
  url : Option String
  ext : String
  filesize : String
deriving DecidableEq

/-- Convert `Option Int` to the `human_size` argument. -/
def sizeInputOf : Option Int → SizeInput
  | Option.none => SizeInput.none
  | Option.some n => SizeInput.int n

/-- Source: `fmt_to_file` from src/app.py. -/
def fmt_to_file : Option CandidateFormat → Option SelectedFile
  | Option.none => Option.none
  | Option.some f =>
    Option.some
      { url := f.url
        ext := pyOrD f.ext "mp4"
        filesize := human_size (sizeInputOf (pyOrInt f.filesize f.filesize_approx)) }

/-! ## sanitize_title and the download filename -/

/-- The character class kept by `re.sub(r'[^A-Za-z0-9 ._-]+', '', title)`. -/
def allowedChar (c : Char) : Bool :=
  ('A' ≤ c && c ≤ 'Z') || ('a' ≤ c && c ≤ 'z') || ('0' ≤ c && c ≤ '9') ||
  c == ' ' || c == '.' || c == '_' || c == '-'

/-- Source: `title = title or "video"`. -/
def sanitize_stage1 (t : String) : String :=
  if t = "" then "video" else t

/-- Source: `title = re.sub(r'[^A-Za-z0-9 ._-]+', '', title)`. -/
def sanitize_stage2 (t : String) : String :=
  String.mk ((sanitize_stage1 t).toList.filter allowedChar)

/-- Source: `title = title.strip()`. -/
def sanitize_stage3 (t : String) : String :=
  String.mk (pyStripList (sanitize_stage2 t).toList)

/-- Source: `if not title: title = "video"`. -/
def sanitize_stage4 (t : String) : String :=
  if sanitize_stage3 t = "" then "video" else sanitize_stage3 t

/-- Source: `sanitize_title` from src/app.py: default empty input to "video", remove
forbidden characters, trim whitespace, default to "video" again if empty,
truncate to 100 characters (the four sequential reassignments of `title` are
the four stages above). -/
def sanitize_title (t : String) : String :=
  if (sanitize_stage4 t).length > 100
  then String.mk ((sanitize_stage4 t).toList.take 100)
  else sanitize_stage4 t

/-- The lower-cased, defaulted extension computed by `download_proxy`:
`request.args.get("ext", "mp4").strip().lower() or "mp4"`. -/
def extOrMp4 (extArg : String) : String :=
  let x := pyLower (pyStripStr extArg)
  if x = "" then "mp4" else x

/-- The attachment filename composed by `download_proxy`:
`f"{safe_title}.{ext}"` with `safe_title = sanitize_title(title.strip())`. -/
def download_filename (titleArg extArg : String) : String :=
  sanitize_title (pyStripStr titleArg) ++ "." ++ extOrMp4 extArg

/-! ## The /extract orchestrator -/

/-- One yt-dlp info dict (top-level result or one playlist entry), restricted
to the keys the program reads.  `entries` holds possibly-`None` member dicts
(`info["entries"]` elements; yt-dlp inserts `None` for failed members when
`ignoreerrors` is set). -/
inductive RawInfo where
  | mk (id title url webpage_url : Option String)
       (formats : Option (List CandidateFormat))
       (entries : Option (List (Option RawInfo)))

def RawInfo.id : RawInfo → Option String
  | .mk i _ _ _ _ _ => i

def RawInfo.title : RawInfo → Option String
  | .mk _ t _ _ _ _ => t

def RawInfo.url : RawInfo → Option String
  | .mk _ _ u _ _ _ => u

def RawInfo.webpage_url : RawInfo → Option String
  | .mk _ _ _ w _ _ => w

def RawInfo.formats : RawInfo → Option (List CandidateFormat)
  | .mk _ _ _ _ f _ => f

def RawInfo.entries : RawInfo → Option (List (Option RawInfo))
  | .mk _ _ _ _ _ e => e

/-- Result of one call to the external extraction collaborator
(`YoutubeDL(opts).extract_info(url, download=False)`): it either raises an
exception whose message is `msg`, or returns an info dict (possibly `None`). -/
inductive ExtractOutcome where
  | raise (msg : String)
  | ok (info : Option RawInfo)

/-- One entry of a playlist-mode response.  `reason = none` models both an
absent key and a `null` value (the UI treats them identically). -/
structure OutEntry where
  id : Option String
  title : Option String
  file : Option SelectedFile
  reason : Option String
deriving DecidableEq

/-- The HTTP response of the `/extract` route.  `serverError` models an
exception escaping the handler (Flask 500), which happens when a per-member
`extract_info` returns `None`: the `vinfo.get("formats")` access then raises
outside the `try` block. -/
inductive ExtractResponse where
  | badRequest (error : String)
  | serverError
  | single (title : Option String) (file : Option SelectedFile) (reason : Option String)
  | playlist (title : String) (entries : List OutEntry) (reason : Option String)
deriving DecidableEq

/-- Right single quotation mark (U+2019), as used in the yt-dlp bot-check
message quoted in src/app.py. -/
def rsq : Char := Char.ofNat 8217

/-- ASCII apostrophe. -/
def apos : Char := Char.ofNat 39

/-- The bot-check marker with a typographic apostrophe. -/
def botMarkerCurly : String :=
  "Sign in to confirm you" ++ String.mk [rsq] ++ "re not a bot"

/-- The bot-check marker with an ASCII apostrophe. -/
def botMarkerAscii : String :=
  "Sign in to confirm you" ++ String.mk [apos] ++ "re not a bot"

/-- The sign-in reason produced for a bot-check error. -/
def signInReason : String :=
  "YouTube is asking you to sign in (bot check). Upload cookies.txt from your browser and try again."

/-- The classification of an extraction error message in the `except` branch
of `extract` (src/app.py lines 604-611). -/
def errorReason (msg : String) : String :=
  if containsSub msg botMarkerCurly || containsSub msg botMarkerAscii then
    signInReason
  else if containsSub msg "Video unavailable" then
    "Video unavailable (deleted, private or blocked)."
  else "Cannot extract info."

/-- Source: `e.get("url") or e.get("webpage_url") or e.get("id")` followed by the
`if not video_url: continue` truthiness test: `some` of the first truthy
field, else `none`. -/
def memberVideoUrl (e : RawInfo) : Option String :=
  match pyOr (pyOr e.url e.webpage_url) e.id with
  | some s => if s = "" then none else some s
  | none => none

/-- Source: `if not video_url.startswith("http"): video_url = f"https://www.youtube.com/watch?v={video_url}"`. -/
def watchUrlOf (v : String) : String :=
  if startsWithB v "http" then v else "https://www.youtube.com/watch?v=" ++ v

/-- The reason string attached to a playlist member whose re-extraction raised. -/
def skipReason : String := "Skipped (sign-in required / unavailable)."

/-- Outcome of the per-member loop body of `extract`: member silently dropped
(`continue`), handler crash (per-member `extract_info` returned `None`, so
`vinfo.get` raises outside the `try`), or an output entry. -/
inductive MemberResult where
  | skipped
  | crashed
  | entry (o : OutEntry)
deriving DecidableEq

/-- The `try: vinfo = vdl.extract_info(video_url, ...)` part of the member
loop, given the already-resolved member url: a raise is caught and produces a
skip entry; a `None` info crashes (`vinfo.get` outside the `try`); otherwise
the entry carries the best file of the member's own format list. -/
def member_fetch (ydl : String → ExtractOutcome) (e : RawInfo) (vurl : String) : MemberResult :=
  match ydl vurl with
  | .raise _ => .entry { id := e.id, title := e.title, file := none, reason := some skipReason }
  | .ok none => .crashed
  | .ok (some vinfo) =>
    .entry { id := pyOr vinfo.id e.id
             title := pyOr vinfo.title e.title
             file := fmt_to_file (choose_best_file (vinfo.formats.getD []))
             reason := none }

/-- One iteration of the `for e in raw_entries` loop of `extract`
(src/app.py lines 634-659). -/
def process_member (ydl : String → ExtractOutcome) (e : RawInfo) : MemberResult :=
  match memberVideoUrl e with
  | none => .skipped
  | some vu => member_fetch ydl e (watchUrlOf vu)

/-- The whole member loop: builds `out_entries` in input order; a crash in any
iteration aborts the request. -/
def process_members (ydl : String → ExtractOutcome) : List RawInfo → Except Unit (List OutEntry)
  | [] => .ok []
  | e :: rest =>
    match process_member ydl e with
    | .skipped => process_members ydl rest
    | .crashed => .error ()
    | .entry o => (process_members ydl rest).map (o :: ·)

/-- The single-video tail of `extract` (src/app.py lines 680-696), applied to
the resolved entry (the top-level info, or the unique playlist member). -/
def singleFromEntry (e : RawInfo) : ExtractResponse :=
  match choose_best_file (e.formats.getD []) with
  | none =>
    .single e.title none (some "No direct downloadable file (maybe sign-in or streaming-only).")
  | some best => .single e.title (fmt_to_file (some best)) none

/-- The branch of `extract` on the non-null entries `raw_entries`
(src/app.py lines 632-676): more than one member resolves each individually,
exactly one member falls through to the single-video path, zero members give
an empty playlist response. -/
def rawEntriesBranch (ydl : String → ExtractOutcome) (info : RawInfo) :
    List RawInfo → ExtractResponse
  | [] =>
    .playlist (pyOrD info.title "Playlist") [] (some "No playable items found in this playlist.")
  | [e] => singleFromEntry e
  | e1 :: e2 :: rest =>
    match process_members ydl (e1 :: e2 :: rest) with
    | .error _ => .serverError
    | .ok out_entries =>
      .playlist (pyOrD info.title "Playlist") out_entries
        (if out_entries = [] then some "All items unavailable / locked." else none)

/-- The `if "entries" in info and info["entries"]:` dispatch of `extract`
(src/app.py line 629): a present, non-empty entries list takes the playlist
branch on the non-null members; otherwise the info itself is the single
video. -/
def entriesBranch (ydl : String → ExtractOutcome) (info : RawInfo) :
    Option (List (Option RawInfo)) → ExtractResponse
  | some (e0 :: es0) => rawEntriesBranch ydl info ((e0 :: es0).filterMap (fun x => x))
  | _ => singleFromEntry info

/-- The part of `extract` after the collaborator call returned
(src/app.py lines 620-696). -/
def extract_core (ydl : String → ExtractOutcome) : Option RawInfo → ExtractResponse
  | none =>
    .single (some "Unavailable video") none (some "No info returned (maybe unavailable or blocked).")
  | some info => entriesBranch ydl info info.entries

/-- The `/extract` route of src/app.py (lines 580-696), with the yt-dlp
collaborator abstracted as `ydl`.  The cookie file only alters the options
passed to the collaborator, so it is absorbed into `ydl`. -/
def extract (ydl : String → ExtractOutcome) (urlArg : String) : ExtractResponse :=
  let url := pyStripStr urlArg
  if url = "" then .badRequest "URL is required"
  else if ¬ (startsWithB url "http://" = true ∨ startsWithB url "https://" = true) then
    .badRequest "URL must start with http:// or https://"
  else
    match ydl url with
    | .raise msg => .single (some "Unavailable video") none (some (errorReason msg))
    | .ok info => extract_core ydl info

/-! ## Helper lemmas -/

lemma mem_of_mem_dropWhile {α : Type} {p : α → Bool} {c : α} :
    ∀ {l : List α}, c ∈ l.dropWhile p → c ∈ l := by
  intro l
  induction l with
  | nil => intro h; simp [List.dropWhile] at h
  | cons a t ih =>
    intro h
    by_cases hp : p a
    · rw [List.dropWhile_cons_of_pos hp] at h
      exact List.mem_cons_of_mem a (ih h)
    · rwa [List.dropWhile_cons_of_neg (by simpa using hp)] at h

lemma mem_of_mem_pyStripList {c : Char} {l : List Char} (h : c ∈ pyStripList l) : c ∈ l := by
  unfold pyStripList at h
  rw [List.mem_reverse] at h
  have h2 := mem_of_mem_dropWhile h
  rw [List.mem_reverse] at h2
  exact mem_of_mem_dropWhile h2

lemma string_mk_eq_empty {l : List Char} : String.mk l = "" ↔ l = [] := by
  constructor
  · intro h
    have : l = ("" : String).data := congrArg String.data h
    simpa using this
  · intro h; rw [h]

lemma pyLower_eq_empty {s : String} : pyLower s = "" ↔ s = "" := by
  cases s with
  | mk l =>
    unfold pyLower
    rw [string_mk_eq_empty]
    show l.map Char.toLower = [] ↔ _
    rw [List.map_eq_nil_iff, string_mk_eq_empty]

lemma human_size_pos (n : Int) (hn : ¬ n = 0) :
    human_size (.int n) = human_size_loop n 1 ["B", "KB", "MB", "GB", "TB"] := by
  simp [human_size, hn]

/-! ## C7: human_size -/

/-- C7: `human_size` yields `""` on absent, zero and non-numeric input;
otherwise it repeatedly divides by 1024 across B/KB/MB/GB/TB/PB, stops at the
first unit where the remaining magnitude is below 1024 (PB is the last unit,
with no further bound), and formats the value with one decimal place
(`fmt1 n d` is the one-decimal rendering of `n / d`).  Concretely
`human_size 1536 = "1.5KB"` and `human_size 1073741824 = "1.0GB"`.
The unit thresholds are the literal powers 1024^k, k = 1..5. -/
theorem human_size_spec :
    (human_size .none = "" ∧ human_size (.int 0) = "" ∧ human_size .nonNumeric = ""
      ∧ human_size (.int 1536) = "1.5KB" ∧ human_size (.int 1073741824) = "1.0GB")
    ∧ (∀ n : Int, 0 < n → n < 1024 → human_size (.int n) = fmt1 n 1 ++ "B")
    ∧ (∀ n : Int, 1024 ≤ n → n < 1048576 → human_size (.int n) = fmt1 n 1024 ++ "KB")
    ∧ (∀ n : Int, 1048576 ≤ n → n < 1073741824 → human_size (.int n) = fmt1 n 1048576 ++ "MB")
    ∧ (∀ n : Int, 1073741824 ≤ n → n < 1099511627776 →
        human_size (.int n) = fmt1 n 1073741824 ++ "GB")
    ∧ (∀ n : Int, 1099511627776 ≤ n → n < 1125899906842624 →
        human_size (.int n) = fmt1 n 1099511627776 ++ "TB")
    ∧ (∀ n : Int, 1125899906842624 ≤ n → human_size (.int n) = fmt1 n 1125899906842624 ++ "PB") := by
  refine ⟨⟨rfl, rfl, rfl, by decide, by decide⟩, ?_, ?_, ?_, ?_, ?_, ?_⟩
  · intro n h1 h2
    rw [human_size_pos n (by omega)]
    rw [human_size_loop, if_pos (by omega)]
  · intro n h1 h2
    rw [human_size_pos n (by omega)]
    rw [human_size_loop, if_neg (by omega), human_size_loop, if_pos (by omega)]
    norm_num
  · intro n h1 h2
    rw [human_size_pos n (by omega)]
    rw [human_size_loop, if_neg (by omega), human_size_loop, if_neg (by omega),
      human_size_loop, if_pos (by omega)]
    norm_num
  · intro n h1 h2
    rw [human_size_pos n (by omega)]
    rw [human_size_loop, if_neg (by omega), human_size_loop, if_neg (by omega),
      human_size_loop, if_neg (by omega), human_size_loop, if_pos (by omega)]
    norm_num
  · intro n h1 h2
    rw [human_size_pos n (by omega)]
    rw [human_size_loop, if_neg (by omega), human_size_loop, if_neg (by omega),
      human_size_loop, if_neg (by omega), human_size_loop, if_neg (by omega),
      human_size_loop, if_pos (by omega)]
    norm_num
  · intro n h1
    rw [human_size_pos n (by omega)]
    rw [human_size_loop, if_neg (by omega), human_size_loop, if_neg (by omega),
      human_size_loop, if_neg (by omega), human_size_loop, if_neg (by omega),
      human_size_loop, if_neg (by omega), human_size_loop]
    norm_num

/-- Witness for C7 at concrete inputs: 2048 bytes fall in the KB band and
2^50 + 5 in the PB band. -/
theorem human_size_spec_witness :
    human_size (.int 2048) = fmt1 2048 1024 ++ "KB"
    ∧ human_size (.int 1125899906842629) = fmt1 1125899906842629 1125899906842624 ++ "PB" :=
  ⟨human_size_spec.2.2.1 2048 (by norm_num) (by norm_num),
   human_size_spec.2.2.2.2.2.2 1125899906842629 (by norm_num)⟩

/-! ## C8: sanitize_title and the download filename -/

set_option maxRecDepth 20000

/-- C8: `sanitize_title` keeps only letters, digits, space, dot, dash and
underscore, trims whitespace, defaults to `"video"` when empty and truncates
to 100 characters, so its output is always non-empty, at most 100 characters
long, and made of allowed characters only; `sanitize_title "" = "video"`, a
200-character input is cut to 100; `download_proxy` composes the attachment
filename as `sanitizedTitle ++ "." ++ ext` with the extension lower-cased and
defaulting to `"mp4"` when empty. -/
theorem sanitize_title_spec :
    (sanitize_title "" = "video")
    ∧ ((sanitize_title (String.mk (List.replicate 200 'a'))).length = 100)
    ∧ (∀ t : String, sanitize_title t ≠ ""
        ∧ (sanitize_title t).length ≤ 100
        ∧ ∀ c ∈ (sanitize_title t).toList, allowedChar c = true)
    ∧ (∀ t e : String, download_filename t e = sanitize_title (pyStripStr t) ++ "." ++ extOrMp4 e)
    ∧ (∀ e : String, (pyLower (pyStripStr e) = "" → extOrMp4 e = "mp4")
        ∧ (pyLower (pyStripStr e) ≠ "" → extOrMp4 e = pyLower (pyStripStr e))) := by
  refine ⟨by decide, by decide, ?_, fun t e => rfl, ?_⟩
  · intro t
    have hne : sanitize_stage4 t ≠ "" := by
      unfold sanitize_stage4
      split
      · decide
      · assumption
    have hchars : ∀ c ∈ (sanitize_stage4 t).toList, allowedChar c = true := by
      unfold sanitize_stage4
      split
      · decide
      · intro c hc
        have hc2 := mem_of_mem_pyStripList (l := (sanitize_stage2 t).toList) hc
        exact (List.mem_filter.mp hc2).2
    have hlen : 0 < (sanitize_stage4 t).length := by
      rcases hs : sanitize_stage4 t with ⟨l⟩
      cases l with
      | nil => rw [hs] at hne; exact absurd rfl hne
      | cons c cs => simp [String.length]
    unfold sanitize_title
    generalize hg : sanitize_stage4 t = s at hne hchars hlen
    by_cases hbig : s.length > 100
    · rw [if_pos hbig]
      refine ⟨?_, ?_, ?_⟩
      · intro h
        rw [string_mk_eq_empty] at h
        have h2 : (s.toList.take 100).length = 0 := by rw [h]; rfl
        rw [List.length_take] at h2
        have h3 : s.toList.length = s.length := rfl
        omega
      · show (s.toList.take 100).length ≤ 100
        rw [List.length_take]
        omega
      · intro c hc
        exact hchars c (List.mem_of_mem_take hc)
    · rw [if_neg hbig]
      exact ⟨hne, by omega, hchars⟩
  · intro e
    constructor
    · intro h; simp [extOrMp4, h]
    · intro h; simp [extOrMp4, h]

/-- Witness for C8: the extension default fires on a blank extension and the
lower-casing on a non-blank one. -/
theorem sanitize_title_spec_witness :
    extOrMp4 "  " = "mp4" ∧ extOrMp4 " MKV " = "mkv" :=
  ⟨(sanitize_title_spec.2.2.2.2 "  ").1 (by decide),
   by rw [(sanitize_title_spec.2.2.2.2 " MKV ").2 (by decide)]; decide⟩

/-! ## C2: characterisation of is_downloadable_file -/

/-- Characterisation of `is_downloadable_file` (shared helper). -/
lemma is_downloadable_char (f : CandidateFormat) :
    is_downloadable_file f = true ↔
      ((∃ u, f.url = some u ∧ u ≠ "")
       ∧ containsSub (pyLower (f.protocol.getD "")) "m3u8" = false
       ∧ containsSub (pyLower (f.protocol.getD "")) "dash" = false
       ∧ containsSub (pyLower (f.protocol.getD "")) "mpd" = false
       ∧ (∃ a, f.acodec = some a ∧ a ≠ "" ∧ a ≠ "none")
       ∧ (∃ v, f.vcodec = some v ∧ v ≠ "" ∧ v ≠ "none")
       ∧ (∀ p, f.protocol = some p → p ≠ "" → startsWithB (pyLower p) "http" = true)) := by
  rcases f with ⟨u, p, a, v, hh, tb, fs, fsa, ex⟩
  simp only [is_downloadable_file]
  constructor
  · intro hL
    split_ifs at hL with h1 h2 h3 h4 h5
    · simp only [Bool.or_eq_true, not_or, Bool.not_eq_true] at h2
      simp only [not_or] at h3 h4
      refine ⟨?_, h2.1.1, h2.1.2, h2.2, ?_, ?_, ?_⟩
      · cases u with
        | none => exact absurd rfl h1
        | some u' => exact ⟨u', rfl, fun he => h1 (by rw [he]; rfl)⟩
      · cases a with
        | none => exact absurd rfl h3.1
        | some a' => exact ⟨a', rfl, h3.1, h3.2⟩
      · cases v with
        | none => exact absurd rfl h4.1
        | some v' => exact ⟨v', rfl, h4.1, h4.2⟩
      · intro p' hp' hpne
        rw [hp'] at h5
        rcases not_and_or.mp h5 with h | h
        · rw [not_not] at h
          exact absurd (pyLower_eq_empty.mp h) hpne
        · rw [not_not] at h
          exact h
  · rintro ⟨⟨u', hu, hune⟩, hm1, hm2, hm3, ⟨a', ha, hane, hanone⟩, ⟨v', hv, hvne, hvnone⟩, hproto⟩
    subst hu; subst ha; subst hv
    rw [if_neg (by simpa using hune)]
    rw [if_neg (by simp [hm1, hm2, hm3])]
    rw [if_neg (by simpa using ⟨hane, hanone⟩)]
    rw [if_neg (by simpa using ⟨hvne, hvnone⟩)]
    rw [if_neg ?_]
    rintro ⟨hne, hstart⟩
    cases p with
    | none => exact hne rfl
    | some p' =>
      by_cases hp : p' = ""
      · subst hp; exact hne rfl
      · exact hstart (hproto p' rfl hp)

/-- C2: `is_downloadable_file` returns `true` exactly when the candidate has a
non-empty url, its lower-cased protocol tag contains none of `"m3u8"`,
`"dash"`, `"mpd"`, both codec tags are present and neither empty nor the
sentinel `"none"`, and a (non-empty) protocol tag, when present, starts with
`"http"` after lower-casing. -/
theorem is_downloadable_file_iff (f : CandidateFormat) :
    is_downloadable_file f = true ↔
      ((∃ u, f.url = some u ∧ u ≠ "")
       ∧ containsSub (pyLower (f.protocol.getD "")) "m3u8" = false
       ∧ containsSub (pyLower (f.protocol.getD "")) "dash" = false
       ∧ containsSub (pyLower (f.protocol.getD "")) "mpd" = false
       ∧ (∃ a, f.acodec = some a ∧ a ≠ "" ∧ a ≠ "none")
       ∧ (∃ v, f.vcodec = some v ∧ v ≠ "" ∧ v ≠ "none")
       ∧ (∀ p, f.protocol = some p → p ≠ "" → startsWithB (pyLower p) "http" = true)) :=
  is_downloadable_char f

/-- Witness for C2, both directions at concrete formats: a progressive https
format passes, an HLS (m3u8) format fails. -/
theorem is_downloadable_file_iff_witness :
    is_downloadable_file
      { url := some "https://e/v.mp4", protocol := some "https", acodec := some "mp4a",
        vcodec := some "avc1", height := some 720, tbr := some 500,
        filesize := none, filesize_approx := none, ext := some "mp4" } = true
    ∧ is_downloadable_file
      { url := some "https://e/v.m3u8", protocol := some "m3u8", acodec := some "mp4a",
        vcodec := some "avc1", height := some 720, tbr := some 500,
        filesize := none, filesize_approx := none, ext := some "mp4" } = false := by
  constructor
  · exact (is_downloadable_file_iff _).mpr
      ⟨⟨"https://e/v.mp4", rfl, by decide⟩, by decide, by decide, by decide,
       ⟨"mp4a", rfl, by decide, by decide⟩, ⟨"avc1", rfl, by decide, by decide⟩,
       by intro p hp hne; cases hp; decide⟩
  · have h := is_downloadable_file_iff
      { url := some "https://e/v.m3u8", protocol := some "m3u8", acodec := some "mp4a",
        vcodec := some "avc1", height := some 720, tbr := some 500,
        filesize := none, filesize_approx := none, ext := some "mp4" }
    rw [Bool.eq_false_iff]
    intro hT
    have := (h.mp hT).2.1
    revert this
    decide

/-! ## C9: totality over missing fields -/

/-- C9: `is_downloadable_file` is total over missing fields and treats them as
failing the corresponding check: a missing url, audio codec or video codec
each force `false`; a missing protocol is not an error — the protocol checks
become vacuous and the result is decided by the url and the codecs alone. -/
theorem is_downloadable_file_total_on_missing :
    (∀ f : CandidateFormat, f.url = none → is_downloadable_file f = false)
    ∧ (∀ f : CandidateFormat, f.acodec = none → is_downloadable_file f = false)
    ∧ (∀ f : CandidateFormat, f.vcodec = none → is_downloadable_file f = false)
    ∧ (∀ f : CandidateFormat, f.protocol = none →
        (is_downloadable_file f = true ↔
          ((∃ u, f.url = some u ∧ u ≠ "")
           ∧ (∃ a, f.acodec = some a ∧ a ≠ "" ∧ a ≠ "none")
           ∧ (∃ v, f.vcodec = some v ∧ v ≠ "" ∧ v ≠ "none")))) := by
  refine ⟨?_, ?_, ?_, ?_⟩
  · rintro ⟨u, p, a, v, hh, tb, fs, fsa, ex⟩ hnone
    cases hnone
    simp [is_downloadable_file]
  · rintro ⟨u, p, a, v, hh, tb, fs, fsa, ex⟩ hnone
    cases hnone
    simp only [is_downloadable_file]
    split_ifs <;> first | rfl | simp_all
  · rintro ⟨u, p, a, v, hh, tb, fs, fsa, ex⟩ hnone
    cases hnone
    simp only [is_downloadable_file]
    split_ifs <;> first | rfl | simp_all
  · intro f hnone
    rw [is_downloadable_char f, hnone]
    constructor
    · rintro ⟨h1, -, -, -, h5, h6, -⟩
      exact ⟨h1, h5, h6⟩
    · rintro ⟨h1, h5, h6⟩
      refine ⟨h1, by decide, by decide, by decide, h5, h6, ?_⟩
      intro p' hp'
      exact absurd hp' (by simp)

/-- Witness for C9: an all-fields-missing candidate is rejected, not an error. -/
theorem is_downloadable_file_total_on_missing_witness :
    is_downloadable_file
      { url := none, protocol := none, acodec := none, vcodec := none,
        height := none, tbr := none, filesize := none, filesize_approx := none,
        ext := none } = false :=
  is_downloadable_file_total_on_missing.1 _ rfl

/-! ## C1: choose_best_file -/

/-- Invariant of the selection loop: a `none` result means the accumulator was
`none` and no survivor in the remaining list beats `best_score`; a `some b`
result is either the incoming accumulator (with no survivor beating
`best_score`) or a survivor of the remaining list that strictly beats
`best_score`, every survivor before it, and weakly every survivor after it. -/
lemma choose_best_go_spec (l : List CandidateFormat) :
    ∀ (best : Option CandidateFormat) (bs : Int),
      (choose_best_go l best bs = none → best = none ∧
        ∀ f ∈ l, is_downloadable_file f = true → score_of f ≤ bs)
      ∧ (∀ b, choose_best_go l best bs = some b →
          ((best = some b ∧ ∀ f ∈ l, is_downloadable_file f = true → score_of f ≤ bs)
           ∨ (∃ pre post, l = pre ++ b :: post ∧ is_downloadable_file b = true
               ∧ bs < score_of b
               ∧ (∀ g ∈ pre, is_downloadable_file g = true → score_of g < score_of b)
               ∧ (∀ g ∈ post, is_downloadable_file g = true → score_of g ≤ score_of b)))) := by
  induction l with
  | nil =>
    intro best bs
    refine ⟨fun h => ⟨h, by simp⟩, fun b h => Or.inl ⟨h, by simp⟩⟩
  | cons f rest ih =>
    intro best bs
    by_cases hd : is_downloadable_file f = true
    · by_cases hs : bs < score_of f
      · have hred : choose_best_go (f :: rest) best bs
            = choose_best_go rest (some f) (score_of f) := by
          rw [choose_best_go, if_pos hd, if_pos hs]
        rw [hred]
        constructor
        · intro h
          obtain ⟨hcontra, -⟩ := (ih (some f) (score_of f)).1 h
          exact absurd hcontra (by simp)
        · intro b h
          rcases (ih (some f) (score_of f)).2 b h with ⟨hb, hall⟩ |
            ⟨pre, post, heq, hdb, hlt, hpre, hpost⟩
          · injection hb with hb'
            subst hb'
            refine Or.inr ⟨[], rest, by simp, hd, hs, by simp, hall⟩
          · refine Or.inr ⟨f :: pre, post, by rw [heq]; rfl, hdb, by omega, ?_, hpost⟩
            intro g hg hdg
            rcases List.mem_cons.mp hg with rfl | hg'
            · omega
            · exact hpre g hg' hdg
      · have hred : choose_best_go (f :: rest) best bs = choose_best_go rest best bs := by
          rw [choose_best_go, if_pos hd, if_neg hs]
        rw [hred]
        constructor
        · intro h
          obtain ⟨h1, h2⟩ := (ih best bs).1 h
          refine ⟨h1, ?_⟩
          intro g hg hdg
          rcases List.mem_cons.mp hg with rfl | hg'
          · omega
          · exact h2 g hg' hdg
        · intro b h
          rcases (ih best bs).2 b h with ⟨hb, hall⟩ |
            ⟨pre, post, heq, hdb, hlt, hpre, hpost⟩
          · refine Or.inl ⟨hb, ?_⟩
            intro g hg hdg
            rcases List.mem_cons.mp hg with rfl | hg'
            · omega
            · exact hall g hg' hdg
          · refine Or.inr ⟨f :: pre, post, by rw [heq]; rfl, hdb, hlt, ?_, hpost⟩
            intro g hg hdg
            rcases List.mem_cons.mp hg with rfl | hg'
            · omega
            · exact hpre g hg' hdg
    · have hred : choose_best_go (f :: rest) best bs = choose_best_go rest best bs := by
        rw [choose_best_go, if_neg hd]
      rw [hred]
      constructor
      · intro h
        obtain ⟨h1, h2⟩ := (ih best bs).1 h
        refine ⟨h1, ?_⟩
        intro g hg hdg
        rcases List.mem_cons.mp hg with rfl | hg'
        · exact absurd hdg hd
        · exact h2 g hg' hdg
      · intro b h
        rcases (ih best bs).2 b h with ⟨hb, hall⟩ |
          ⟨pre, post, heq, hdb, hlt, hpre, hpost⟩
        · refine Or.inl ⟨hb, ?_⟩
          intro g hg hdg
          rcases List.mem_cons.mp hg with rfl | hg'
          · exact absurd hdg hd
          · exact hall g hg' hdg
        · refine Or.inr ⟨f :: pre, post, by rw [heq]; rfl, hdb, hlt, ?_, hpost⟩
          intro g hg hdg
          rcases List.mem_cons.mp hg with rfl | hg'
          · exact absurd hdg hd
          · exact hpre g hg' hdg

/-- C1 (amended): `choose_best_file` returns `none` exactly when no candidate
passes the filter with a non-negative score (the running best score starts at
`-1`, so a surviving candidate whose score is negative can never be selected);
otherwise it returns a surviving candidate with non-negative score that
strictly beats every earlier survivor and weakly beats every later one —
equal-score survivors keep the first-seen. -/
theorem choose_best_file_selection (formats : List CandidateFormat) :
    (choose_best_file formats = none ↔
      ∀ f ∈ formats, is_downloadable_file f = true → score_of f < 0)
    ∧ (∀ b, choose_best_file formats = some b →
        is_downloadable_file b = true ∧ 0 ≤ score_of b
        ∧ ∃ pre post, formats = pre ++ b :: post
            ∧ (∀ g ∈ pre, is_downloadable_file g = true → score_of g < score_of b)
            ∧ (∀ g ∈ post, is_downloadable_file g = true → score_of g ≤ score_of b)) := by
  constructor
  · constructor
    · intro h
      obtain ⟨-, h2⟩ := (choose_best_go_spec formats none (-1)).1 h
      intro f hf hdf
      have := h2 f hf hdf
      omega
    · intro hall
      cases hres : choose_best_file formats with
      | none => rfl
      | some b =>
        rcases (choose_best_go_spec formats none (-1)).2 b hres with ⟨hb, -⟩ |
          ⟨pre, post, heq, hdb, hlt, -, -⟩
        · exact absurd hb (by simp)
        · have hmem : b ∈ formats := by rw [heq]; exact List.mem_append_right pre (List.mem_cons_self b post)
          have := hall b hmem hdb
          omega
  · intro b h
    rcases (choose_best_go_spec formats none (-1)).2 b h with ⟨hb, -⟩ |
      ⟨pre, post, heq, hdb, hlt, hpre, hpost⟩
    · exact absurd hb (by simp)
    · exact ⟨hdb, by omega, pre, post, heq, hpre, hpost⟩

/-- A candidate that passes the filter but has score `-1000` (height `-1`,
no bitrate): `choose_best_file` rejects it because of the `-1` start value. -/
def negHeightFmt : CandidateFormat :=
  { url := some "https://e/v.mp4", protocol := some "https", acodec := some "mp4a",
    vcodec := some "avc1", height := some (-1), tbr := none,
    filesize := none, filesize_approx := none, ext := some "mp4" }

/-- Counterexample to C1 as stated: `negHeightFmt` passes the filter, yet
`choose_best_file [negHeightFmt]` returns `none` — so a surviving candidate
exists but none is returned. -/
theorem choose_best_file_negative_score_cex :
    is_downloadable_file negHeightFmt = true ∧ choose_best_file [negHeightFmt] = none := by
  constructor
  · decide
  · decide

/-- The 720p/900kbps survivor of the worked example in the spec. -/
def fmt720 : CandidateFormat :=
  { url := some "https://e/720.mp4", protocol := some "https", acodec := some "mp4a",
    vcodec := some "avc1", height := some 720, tbr := some 900,
    filesize := none, filesize_approx := none, ext := some "mp4" }

/-- The 1080p/100kbps survivor of the worked example in the spec. -/
def fmt1080 : CandidateFormat :=
  { url := some "https://e/1080.mp4", protocol := some "https", acodec := some "mp4a",
    vcodec := some "avc1", height := some 1080, tbr := some 100,
    filesize := none, filesize_approx := none, ext := some "mp4" }

/-- Witness for C1 (amended): on `[fmt720, fmt1080]` the selected candidate is
the 1080p one, and it satisfies the selection property. -/
theorem choose_best_file_selection_witness :
    is_downloadable_file fmt1080 = true ∧ 0 ≤ score_of fmt1080
    ∧ ∃ pre post, [fmt720, fmt1080] = pre ++ fmt1080 :: post
        ∧ (∀ g ∈ pre, is_downloadable_file g = true → score_of g < score_of fmt1080)
        ∧ (∀ g ∈ post, is_downloadable_file g = true → score_of g ≤ score_of fmt1080) :=
  (choose_best_file_selection [fmt720, fmt1080]).2 fmt1080 (by decide)

/-! ## Helper lemmas about extract -/

lemma extract_eq_core (ydl : String → ExtractOutcome) (urlArg : String)
    (h1 : pyStripStr urlArg ≠ "")
    (h2 : startsWithB (pyStripStr urlArg) "http://" = true
          ∨ startsWithB (pyStripStr urlArg) "https://" = true) :
    extract ydl urlArg
      = match ydl (pyStripStr urlArg) with
        | .raise msg => .single (some "Unavailable video") none (some (errorReason msg))
        | .ok info => extract_core ydl info := by
  unfold extract
  rw [if_neg h1, if_neg (not_not_intro h2)]

lemma extract_raise (ydl : String → ExtractOutcome) (urlArg msg : String)
    (h1 : pyStripStr urlArg ≠ "")
    (h2 : startsWithB (pyStripStr urlArg) "http://" = true
          ∨ startsWithB (pyStripStr urlArg) "https://" = true)
    (h3 : ydl (pyStripStr urlArg) = .raise msg) :
    extract ydl urlArg = .single (some "Unavailable video") none (some (errorReason msg)) := by
  rw [extract_eq_core ydl urlArg h1 h2, h3]

lemma extract_ok (ydl : String → ExtractOutcome) (urlArg : String) (info : Option RawInfo)
    (h1 : pyStripStr urlArg ≠ "")
    (h2 : startsWithB (pyStripStr urlArg) "http://" = true
          ∨ startsWithB (pyStripStr urlArg) "https://" = true)
    (h3 : ydl (pyStripStr urlArg) = .ok info) :
    extract ydl urlArg = extract_core ydl info := by
  rw [extract_eq_core ydl urlArg h1 h2, h3]

lemma singleFromEntry_shape (e : RawInfo) :
    ∃ f r, singleFromEntry e = .single e.title f r
      ∧ ((f = none ∧ r ≠ none) ∨ (f ≠ none ∧ r = none)) := by
  cases hb : choose_best_file (e.formats.getD []) with
  | none =>
    refine ⟨none, some "No direct downloadable file (maybe sign-in or streaming-only).",
      ?_, Or.inl ⟨rfl, by simp⟩⟩
    unfold singleFromEntry
    rw [hb]
  | some b =>
    refine ⟨fmt_to_file (some b), none, ?_, Or.inr ⟨by simp [fmt_to_file], rfl⟩⟩
    unfold singleFromEntry
    rw [hb]

lemma process_member_skipped (ydl : String → ExtractOutcome) (e : RawInfo)
    (hvu : memberVideoUrl e = none) : process_member ydl e = .skipped := by
  unfold process_member
  rw [hvu]

lemma process_member_resolved (ydl : String → ExtractOutcome) (e : RawInfo) (vu : String)
    (hvu : memberVideoUrl e = some vu) :
    process_member ydl e = member_fetch ydl e (watchUrlOf vu) := by
  unfold process_member
  rw [hvu]

lemma member_fetch_raise (ydl : String → ExtractOutcome) (e : RawInfo) (vurl msg : String)
    (hy : ydl vurl = .raise msg) :
    member_fetch ydl e vurl
      = .entry { id := e.id, title := e.title, file := none, reason := some skipReason } := by
  unfold member_fetch
  rw [hy]

lemma member_fetch_crash (ydl : String → ExtractOutcome) (e : RawInfo) (vurl : String)
    (hy : ydl vurl = .ok none) : member_fetch ydl e vurl = .crashed := by
  unfold member_fetch
  rw [hy]

lemma member_fetch_ok (ydl : String → ExtractOutcome) (e vinfo : RawInfo) (vurl : String)
    (hy : ydl vurl = .ok (some vinfo)) :
    member_fetch ydl e vurl
      = .entry { id := pyOr vinfo.id e.id, title := pyOr vinfo.title e.title,
                 file := fmt_to_file (choose_best_file (vinfo.formats.getD [])),
                 reason := none } := by
  unfold member_fetch
  rw [hy]

lemma process_member_entry_shape (ydl : String → ExtractOutcome) (e : RawInfo) (o : OutEntry)
    (h : process_member ydl e = .entry o) :
    o.reason = none ∨ (o.file = none ∧ o.reason = some skipReason) := by
  cases hvu : memberVideoUrl e with
  | none =>
    rw [process_member_skipped ydl e hvu] at h
    exact absurd h (by simp)
  | some vu =>
    rw [process_member_resolved ydl e vu hvu] at h
    cases hy : ydl (watchUrlOf vu) with
    | raise msg =>
      rw [member_fetch_raise ydl e _ msg hy] at h
      injection h with h'
      subst h'
      exact Or.inr ⟨rfl, rfl⟩
    | ok oinfo =>
      cases oinfo with
      | none =>
        rw [member_fetch_crash ydl e _ hy] at h
        exact absurd h (by simp)
      | some vinfo =>
        rw [member_fetch_ok ydl e vinfo _ hy] at h
        injection h with h'
        subst h'
        exact Or.inl rfl

/-- Projection of a loop-iteration result to the produced entry, if any. -/
def entryOpt : MemberResult → Option OutEntry
  | .entry o => some o
  | _ => none

/-- The entry produced for a member, when the member produces one. -/
def memberEntry (ydl : String → ExtractOutcome) (e : RawInfo) : OutEntry :=
  match process_member ydl e with
  | .entry o => o
  | _ => { id := none, title := none, file := none, reason := none }

lemma process_members_no_crash (ydl : String → ExtractOutcome) :
    ∀ l : List RawInfo, (∀ e ∈ l, process_member ydl e ≠ .crashed) →
      process_members ydl l = .ok (l.filterMap (fun e => entryOpt (process_member ydl e))) := by
  intro l
  induction l with
  | nil => intro _; rfl
  | cons e rest ih =>
    intro h
    have hrest := ih (fun x hx => h x (List.mem_cons_of_mem e hx))
    unfold process_members
    cases hpm : process_member ydl e with
    | skipped => simp [hpm, hrest, entryOpt]
    | crashed => exact absurd hpm (h e (List.mem_cons_self e rest))
    | entry o => simp [hpm, hrest, entryOpt, Except.map]

lemma process_members_all_entries (ydl : String → ExtractOutcome) :
    ∀ l : List RawInfo, (∀ e ∈ l, ∃ o, process_member ydl e = .entry o) →
      process_members ydl l = .ok (l.map (memberEntry ydl)) := by
  intro l
  induction l with
  | nil => intro _; rfl
  | cons e rest ih =>
    intro h
    have hrest := ih (fun x hx => h x (List.mem_cons_of_mem e hx))
    obtain ⟨o, ho⟩ := h e (List.mem_cons_self e rest)
    unfold process_members
    rw [ho, hrest]
    have hme : memberEntry ydl e = o := by unfold memberEntry; rw [ho]
    simp [Except.map, hme]

lemma process_members_entry_prop (ydl : String → ExtractOutcome) :
    ∀ (l : List RawInfo) (es : List OutEntry), process_members ydl l = .ok es →
      ∀ o ∈ es, o.reason ≠ none → o.file = none := by
  intro l
  induction l with
  | nil =>
    intro es h o ho _
    unfold process_members at h
    injection h with h'
    subst h'
    simp at ho
  | cons e rest ih =>
    intro es h
    unfold process_members at h
    cases hpm : process_member ydl e with
    | skipped => rw [hpm] at h; exact ih es h
    | crashed => rw [hpm] at h; exact absurd h (by simp)
    | entry o =>
      rw [hpm] at h
      cases hrest : process_members ydl rest with
      | error u => rw [hrest] at h; simp [Except.map] at h
      | ok es' =>
        rw [hrest] at h
        simp only [Except.map] at h
        injection h with h'
        subst h'
        intro o' ho' hro'
        rcases List.mem_cons.mp ho' with rfl | hmem
        · rcases process_member_entry_shape ydl e o' hpm with hr | ⟨hf, -⟩
          · exact absurd hr hro'
          · exact hf
        · exact ih es' hrest o' hmem hro'

/-- Every `/extract` response is a 400, a crash, a single-mode body in which
exactly one of `file`/`reason` is present, or a playlist body in which every
entry carrying a reason has a null file. -/
lemma extract_cases (ydl : String → ExtractOutcome) (urlArg : String) :
    (∃ err, extract ydl urlArg = .badRequest err)
    ∨ extract ydl urlArg = .serverError
    ∨ (∃ t f r, extract ydl urlArg = .single t f r
        ∧ ((f = none ∧ r ≠ none) ∨ (f ≠ none ∧ r = none)))
    ∨ (∃ t es r, extract ydl urlArg = .playlist t es r
        ∧ ∀ o ∈ es, o.reason ≠ none → o.file = none) := by
  by_cases h1 : pyStripStr urlArg = ""
  · refine Or.inl ⟨"URL is required", ?_⟩
    unfold extract
    rw [if_pos h1]
  · by_cases h2 : startsWithB (pyStripStr urlArg) "http://" = true
        ∨ startsWithB (pyStripStr urlArg) "https://" = true
    · cases hy : ydl (pyStripStr urlArg) with
      | raise msg =>
        exact Or.inr (Or.inr (Or.inl ⟨_, _, _, extract_raise ydl urlArg msg h1 h2 hy,
          Or.inl ⟨rfl, by simp⟩⟩))
      | ok oinfo =>
        have hx := extract_ok ydl urlArg oinfo h1 h2 hy
        cases oinfo with
        | none =>
          exact Or.inr (Or.inr (Or.inl ⟨_, _, _, hx.trans rfl, Or.inl ⟨rfl, by simp⟩⟩))
        | some info =>
          rw [show extract_core ydl (some info) = entriesBranch ydl info info.entries from rfl]
            at hx
          have hsingle : ∀ e : RawInfo, extract ydl urlArg = singleFromEntry e →
              (∃ t f r, extract ydl urlArg = .single t f r
                ∧ ((f = none ∧ r ≠ none) ∨ (f ≠ none ∧ r = none))) := by
            intro e he
            obtain ⟨f, r, hfr, hex⟩ := singleFromEntry_shape e
            exact ⟨e.title, f, r, he.trans hfr, hex⟩
          rcases hent : info.entries with _ | l
          · rw [hent] at hx
            exact Or.inr (Or.inr (Or.inl (hsingle info (hx.trans rfl))))
          · cases l with
            | nil =>
              rw [hent] at hx
              exact Or.inr (Or.inr (Or.inl (hsingle info (hx.trans rfl))))
            | cons x xs =>
              rw [hent] at hx
              rw [show entriesBranch ydl info (some (x :: xs))
                  = rawEntriesBranch ydl info ((x :: xs).filterMap (fun y => y)) from rfl] at hx
              rcases hraw : (x :: xs).filterMap (fun y => y) with _ | ⟨a, _ | ⟨b, rest⟩⟩
              · rw [hraw] at hx
                exact Or.inr (Or.inr (Or.inr ⟨_, _, _, hx.trans rfl, by simp⟩))
              · rw [hraw] at hx
                exact Or.inr (Or.inr (Or.inl (hsingle a (hx.trans rfl))))
              · rw [hraw] at hx
                have hrb : rawEntriesBranch ydl info (a :: b :: rest)
                    = match process_members ydl (a :: b :: rest) with
                      | .error _ => .serverError
                      | .ok out_entries =>
                        .playlist (pyOrD info.title "Playlist") out_entries
                          (if out_entries = []
                           then some "All items unavailable / locked." else none) := rfl
                cases hpm : process_members ydl (a :: b :: rest) with
                | error u =>
                  refine Or.inr (Or.inl ?_)
                  rw [hx, hrb, hpm]
                | ok out =>
                  refine Or.inr (Or.inr (Or.inr ⟨pyOrD info.title "Playlist", out,
                    if out = [] then some "All items unavailable / locked." else none, ?_, ?_⟩))
                  · rw [hx, hrb, hpm]
                  · exact process_members_entry_prop ydl (a :: b :: rest) out hpm
    · refine Or.inl ⟨"URL must start with http:// or https://", ?_⟩
      unfold extract
      rw [if_neg h1, if_pos h2]

/-! ## C3: file/reason exclusivity -/

/-- C3 (amended): in every single-mode response exactly one of `file` and
`reason` is present; in a playlist response every entry that carries a reason
has a null file — but an entry resolved successfully with no downloadable
format carries a bare null file without a reason (see the counterexample). -/
theorem response_file_reason_exclusive :
    (∀ (ydl : String → ExtractOutcome) (urlArg : String) (t : Option String)
        (f : Option SelectedFile) (r : Option String),
      extract ydl urlArg = .single t f r → ((f = none ∧ r ≠ none) ∨ (f ≠ none ∧ r = none)))
    ∧ (∀ (ydl : String → ExtractOutcome) (urlArg : String) (t : String)
        (es : List OutEntry) (r : Option String),
      extract ydl urlArg = .playlist t es r → ∀ o ∈ es, o.reason ≠ none → o.file = none) := by
  constructor
  · intro ydl urlArg t f r h
    rcases extract_cases ydl urlArg with ⟨err, he⟩ | he | ⟨t', f', r', he, hex⟩ |
      ⟨t', es', r', he, -⟩
    · rw [h] at he; exact absurd he (by simp)
    · rw [h] at he; exact absurd he (by simp)
    · rw [h] at he
      injection he with h1 h2 h3
      subst h2; subst h3
      exact hex
    · rw [h] at he; exact absurd he (by simp)
  · intro ydl urlArg t es r h o ho hro
    rcases extract_cases ydl urlArg with ⟨err, he⟩ | he | ⟨t', f', r', he, -⟩ |
      ⟨t', es', r', he, hprop⟩
    · rw [h] at he; exact absurd he (by simp)
    · rw [h] at he; exact absurd he (by simp)
    · rw [h] at he; exact absurd he (by simp)
    · rw [h] at he
      injection he with h1 h2 h3
      subst h2
      exact hprop o ho hro

/-- A two-member playlist whose members both resolve but offer no
downloadable format. -/
def plMemberA : RawInfo := .mk (some "a") (some "A") none none none none

/-- Second member of the same playlist. -/
def plMemberB : RawInfo := .mk (some "b") (some "B") none none none none

/-- Per-member resolution result for member `a`: empty format list. -/
def vinfoA : RawInfo := .mk (some "a") (some "A") none none (some []) none

/-- Per-member resolution result for member `b`: empty format list. -/
def vinfoB : RawInfo := .mk (some "b") (some "B") none none (some []) none

/-- Top-level collaborator result: a playlist named "PL" with two members. -/
def plInfo : RawInfo :=
  .mk none (some "PL") none none none (some [some plMemberA, some plMemberB])

/-- A concrete collaborator exercising the multi-member playlist path. -/
def ydl0 : String → ExtractOutcome := fun u =>
  if u = "https://pl" then .ok (some plInfo)
  else if u = "https://www.youtube.com/watch?v=a" then .ok (some vinfoA)
  else if u = "https://www.youtube.com/watch?v=b" then .ok (some vinfoB)
  else .raise "unexpected url"

/-- Counterexample to C3 as stated: both playlist entries are resolved
successfully, have no downloadable format, and are returned with `file = none`
and no reason at all — the claimed "exactly one of file/reason" invariant
fails on playlist entries. -/
theorem playlist_entry_no_reason_cex :
    extract ydl0 "https://pl"
      = .playlist "PL"
          [{ id := some "a", title := some "A", file := none, reason := none },
           { id := some "b", title := some "B", file := none, reason := none }] none
    ∧ ({ id := some "a", title := some "A", file := none, reason := none } : OutEntry).file = none
    ∧ ({ id := some "a", title := some "A", file := none, reason := none } : OutEntry).reason
        = none := by
  refine ⟨by decide, rfl, rfl⟩

/-- Witness for C3 (amended), single part at a concrete failing extraction. -/
theorem response_file_reason_exclusive_witness :
    ((none : Option SelectedFile) = none ∧ some (errorReason "boom") ≠ none)
    ∨ ((none : Option SelectedFile) ≠ none ∧ some (errorReason "boom") = none) :=
  response_file_reason_exclusive.1 (fun _ => .raise "boom") "https://a"
    (some "Unavailable video") none (some (errorReason "boom")) (by decide)

/-! ## C4: error classification -/

/-- C4 (amended): when the collaborator raises, a valid URL still gets a
single-mode body with a null file and a classified reason; a bot-check marker
(taking precedence) yields the sign-in/cookies reason, otherwise a
"Video unavailable" marker yields the removed/blocked reason, and any other
message yields the fixed generic reason "Cannot extract info.", which does not
include the raw error text. -/
theorem extract_error_classification (msg urlArg : String)
    (h1 : pyStripStr urlArg ≠ "")
    (h2 : startsWithB (pyStripStr urlArg) "http://" = true
          ∨ startsWithB (pyStripStr urlArg) "https://" = true) :
    extract (fun _ => .raise msg) urlArg
      = .single (some "Unavailable video") none (some (errorReason msg))
    ∧ ((containsSub msg botMarkerCurly = true ∨ containsSub msg botMarkerAscii = true) →
        errorReason msg = signInReason
        ∧ containsSub signInReason "sign in" = true
        ∧ containsSub signInReason "cookies" = true)
    ∧ (containsSub msg botMarkerCurly = false → containsSub msg botMarkerAscii = false →
        containsSub msg "Video unavailable" = true →
        errorReason msg = "Video unavailable (deleted, private or blocked).")
    ∧ (containsSub msg botMarkerCurly = false → containsSub msg botMarkerAscii = false →
        containsSub msg "Video unavailable" = false →
        errorReason msg = "Cannot extract info.") := by
  refine ⟨extract_raise _ urlArg msg h1 h2 rfl, ?_, ?_, ?_⟩
  · intro hbot
    have hcond : (containsSub msg botMarkerCurly || containsSub msg botMarkerAscii) = true := by
      rcases hbot with h | h <;> simp [h]
    refine ⟨?_, by decide, by decide⟩
    unfold errorReason
    rw [if_pos hcond]
  · intro hb1 hb2 hv
    unfold errorReason
    rw [if_neg (by simp [hb1, hb2]), if_pos hv]
  · intro hb1 hb2 hv
    unfold errorReason
    rw [if_neg (by simp [hb1, hb2]), if_neg (by simp [hv])]

/-- Counterexample to C4 as stated: an unclassified error yields the fixed
reason "Cannot extract info.", which does not contain the raw error text; and
a message containing both the bot-check marker and "Video unavailable" gets
the sign-in reason, not the removed/blocked one. -/
theorem extract_generic_reason_cex :
    extract (fun _ => .raise "mystery failure 12345") "https://a"
      = .single (some "Unavailable video") none (some "Cannot extract info.")
    ∧ containsSub "Cannot extract info." "12345" = false
    ∧ extract (fun _ => .raise (botMarkerAscii ++ "; Video unavailable")) "https://a"
      = .single (some "Unavailable video") none (some signInReason)
    ∧ containsSub (botMarkerAscii ++ "; Video unavailable") "Video unavailable" = true
    ∧ signInReason ≠ "Video unavailable (deleted, private or blocked)." := by
  refine ⟨by decide, by decide, by decide, by decide, by decide⟩

/-- Witness for C4 at a concrete sign-in-challenge message. -/
theorem extract_error_classification_witness :
    extract (fun _ => .raise botMarkerAscii) "https://w"
      = .single (some "Unavailable video") none (some (errorReason botMarkerAscii))
    ∧ errorReason botMarkerAscii = signInReason
    ∧ containsSub signInReason "sign in" = true
    ∧ containsSub signInReason "cookies" = true := by
  have h := extract_error_classification botMarkerAscii "https://w" (by decide) (by decide)
  exact ⟨h.1, h.2.1 (Or.inr (by decide))⟩

/-! ## C6: single-member collapse -/

/-- C6 (amended): a collection whose non-null members reduce to exactly one
member is reported with mode "single", built from that member's own metadata
and format list — the member is NOT re-extracted individually, so an
incomplete format list yields a null file with a reason (see the
counterexample). -/
theorem single_member_collapse (ydl : String → ExtractOutcome) (urlArg : String)
    (info : RawInfo) (l : List (Option RawInfo)) (e : RawInfo)
    (h1 : pyStripStr urlArg ≠ "")
    (h2 : startsWithB (pyStripStr urlArg) "http://" = true
          ∨ startsWithB (pyStripStr urlArg) "https://" = true)
    (h3 : ydl (pyStripStr urlArg) = .ok (some info))
    (h4 : info.entries = some l)
    (h5 : l.filterMap (fun x => x) = [e]) :
    extract ydl urlArg = singleFromEntry e
    ∧ ∃ f r, extract ydl urlArg = .single e.title f r := by
  have hx := extract_ok ydl urlArg (some info) h1 h2 h3
  rw [show extract_core ydl (some info) = entriesBranch ydl info info.entries from rfl,
    h4] at hx
  cases l with
  | nil => simp at h5
  | cons x xs =>
    rw [show entriesBranch ydl info (some (x :: xs))
        = rawEntriesBranch ydl info ((x :: xs).filterMap (fun y => y)) from rfl, h5] at hx
    have hone : rawEntriesBranch ydl info [e] = singleFromEntry e := rfl
    rw [hone] at hx
    obtain ⟨f, r, hfr, -⟩ := singleFromEntry_shape e
    exact ⟨hx, f, r, hx.trans hfr⟩

/-- The unique member of a one-member playlist, listed without formats. -/
def singleMemberC : RawInfo := .mk (some "c") (some "C") none none none none

/-- A progressive format that would be found by re-extracting member `c`. -/
def goodFmtC : CandidateFormat :=
  { url := some "https://cdn/c.mp4", protocol := some "https", acodec := some "mp4a",
    vcodec := some "avc1", height := some 360, tbr := some 300,
    filesize := none, filesize_approx := none, ext := some "mp4" }

/-- What extracting member `c` individually would return. -/
def vinfoC : RawInfo := .mk (some "c") (some "C") none none (some [goodFmtC]) none

/-- Collaborator result for the one-member playlist. -/
def plInfoQ : RawInfo := .mk none (some "Q") none none none (some [some singleMemberC])

/-- A concrete collaborator for the one-member playlist scenario. -/
def ydl1 : String → ExtractOutcome := fun u =>
  if u = "https://q" then .ok (some plInfoQ)
  else if u = "https://www.youtube.com/watch?v=c" then .ok (some vinfoC)
  else .raise "unexpected url"

/-- Counterexample to C6 as stated: the sole member's listed format catalogue
is empty, so the single-mode response has a null file — although re-extracting
the member individually (as the claim asserts happens) would have produced a
downloadable file.  `extract` never performs that second call. -/
theorem single_member_no_reextract_cex :
    extract ydl1 "https://q"
      = .single (some "C") none
          (some "No direct downloadable file (maybe sign-in or streaming-only).")
    ∧ ydl1 (watchUrlOf "c") = .ok (some vinfoC)
    ∧ (fmt_to_file (choose_best_file (vinfoC.formats.getD []))).isSome = true := by
  refine ⟨by decide, rfl, by decide⟩

/-- Witness for C6 (amended) on the concrete one-member playlist. -/
theorem single_member_collapse_witness :
    extract ydl1 "https://q" = singleFromEntry singleMemberC
    ∧ ∃ f r, extract ydl1 "https://q" = .single singleMemberC.title f r :=
  single_member_collapse ydl1 "https://q" plInfoQ [some singleMemberC] singleMemberC
    (by decide) (by decide) rfl rfl rfl

/-! ## C5: per-member failure isolation -/

/-- C5: in the multi-member path, when every member resolves to an output
entry (its re-extraction either succeeds or raises — no member is dropped for
lack of a url and none returns a null info), the response is a playlist with
exactly one entry per member, in input order, and every member whose
re-extraction raised carries the skip reason and a null file. -/
theorem playlist_member_failure_isolation (ydl : String → ExtractOutcome) (urlArg : String)
    (info : RawInfo) (l : List (Option RawInfo)) (e1 e2 : RawInfo) (rest : List RawInfo)
    (h1 : pyStripStr urlArg ≠ "")
    (h2 : startsWithB (pyStripStr urlArg) "http://" = true
          ∨ startsWithB (pyStripStr urlArg) "https://" = true)
    (h3 : ydl (pyStripStr urlArg) = .ok (some info))
    (h4 : info.entries = some l)
    (h5 : l.filterMap (fun x => x) = e1 :: e2 :: rest)
    (h6 : ∀ e ∈ e1 :: e2 :: rest, ∃ o, process_member ydl e = .entry o) :
    extract ydl urlArg
      = .playlist (pyOrD info.title "Playlist")
          ((e1 :: e2 :: rest).map (memberEntry ydl)) none
    ∧ ((e1 :: e2 :: rest).map (memberEntry ydl)).length = (e1 :: e2 :: rest).length
    ∧ (∀ e ∈ e1 :: e2 :: rest, ∀ vu msg, memberVideoUrl e = some vu →
        ydl (watchUrlOf vu) = .raise msg →
        memberEntry ydl e
          = { id := e.id, title := e.title, file := none, reason := some skipReason }) := by
  refine ⟨?_, by simp, ?_⟩
  · have hx := extract_ok ydl urlArg (some info) h1 h2 h3
    rw [show extract_core ydl (some info) = entriesBranch ydl info info.entries from rfl,
      h4] at hx
    cases l with
    | nil => simp at h5
    | cons x xs =>
      rw [show entriesBranch ydl info (some (x :: xs))
          = rawEntriesBranch ydl info ((x :: xs).filterMap (fun y => y)) from rfl, h5] at hx
      rw [hx]
      have hrb : rawEntriesBranch ydl info (e1 :: e2 :: rest)
          = match process_members ydl (e1 :: e2 :: rest) with
            | .error _ => .serverError
            | .ok out_entries =>
              .playlist (pyOrD info.title "Playlist") out_entries
                (if out_entries = [] then some "All items unavailable / locked." else none) :=
        rfl
      rw [hrb, process_members_all_entries ydl (e1 :: e2 :: rest) h6]
      simp
  · intro e he vu msg hvu hy
    unfold memberEntry
    rw [process_member_resolved ydl e vu hvu, member_fetch_raise ydl e _ msg hy]

/-- First member of the three-member playlist. -/
def m3a : RawInfo := .mk (some "a3") (some "A3") none none none none

/-- Second member; its individual re-extraction raises. -/
def m3b : RawInfo := .mk (some "b3") (some "B3") none none none none

/-- Third member. -/
def m3c : RawInfo := .mk (some "c3") (some "C3") none none none none

/-- Individual re-extraction result for member `a3`. -/
def v3a : RawInfo := .mk (some "a3") (some "A3") none none (some []) none

/-- Individual re-extraction result for member `c3`. -/
def v3c : RawInfo := .mk (some "c3") (some "C3") none none (some []) none

/-- Collaborator result for the three-member playlist. -/
def pl3 : RawInfo :=
  .mk none (some "PL3") none none none (some [some m3a, some m3b, some m3c])

/-- A concrete collaborator where exactly the middle member fails. -/
def ydl3 : String → ExtractOutcome := fun u =>
  if u = "https://p3" then .ok (some pl3)
  else if u = "https://www.youtube.com/watch?v=a3" then .ok (some v3a)
  else if u = "https://www.youtube.com/watch?v=b3" then .raise "blocked"
  else if u = "https://www.youtube.com/watch?v=c3" then .ok (some v3c)
  else .raise "unexpected url"

/-- Witness for C5: 3 raw members, one failing, yield exactly 3 entries in
order, the failing one carrying the skip reason. -/
theorem playlist_member_failure_isolation_witness :
    extract ydl3 "https://p3"
      = .playlist "PL3" [memberEntry ydl3 m3a, memberEntry ydl3 m3b, memberEntry ydl3 m3c] none
    ∧ memberEntry ydl3 m3b
      = { id := some "b3", title := some "B3", file := none, reason := some skipReason } := by
  have h := playlist_member_failure_isolation ydl3 "https://p3" pl3
    [some m3a, some m3b, some m3c] m3a m3b [m3c]
    (by decide) (by decide) rfl rfl rfl
    (by
      intro e he
      simp only [List.mem_cons, List.not_mem_nil, or_false] at he
      rcases he with rfl | rfl | rfl <;> exact ⟨_, rfl⟩)
  exact ⟨h.1, h.2.2 m3b (by simp) "b3" "blocked" rfl rfl⟩

/-! ## C10: members without any id are silently dropped -/

lemma entries_length_eq_url_count (ydl : String → ExtractOutcome) :
    ∀ l : List RawInfo, (∀ e ∈ l, process_member ydl e ≠ .crashed) →
      (l.filterMap (fun e => entryOpt (process_member ydl e))).length
        = (l.filter (fun e => (memberVideoUrl e).isSome)).length := by
  intro l
  induction l with
  | nil => intro _; rfl
  | cons e rest ih =>
    intro h
    have hrest := ih (fun x hx => h x (List.mem_cons_of_mem e hx))
    cases hvu : memberVideoUrl e with
    | none =>
      have he1 : entryOpt (process_member ydl e) = none := by
        rw [process_member_skipped ydl e hvu]
        rfl
      rw [List.filterMap_cons, he1, List.filter_cons, hvu]
      simpa using hrest
    | some vu =>
      have hres := process_member_resolved ydl e vu hvu
      cases hy : ydl (watchUrlOf vu) with
      | raise msg =>
        have he1 : entryOpt (process_member ydl e)
            = some { id := e.id, title := e.title, file := none, reason := some skipReason } := by
          rw [hres, member_fetch_raise ydl e _ msg hy]
          rfl
        rw [List.filterMap_cons, he1, List.filter_cons, hvu]
        simpa using hrest
      | ok oinfo =>
        cases oinfo with
        | none =>
          exfalso
          apply h e (List.mem_cons_self e rest)
          rw [hres, member_fetch_crash ydl e _ hy]
        | some vinfo =>
          have he1 : entryOpt (process_member ydl e)
              = some { id := pyOr vinfo.id e.id, title := pyOr vinfo.title e.title,
                       file := fmt_to_file (choose_best_file (vinfo.formats.getD [])),
                       reason := none } := by
            rw [hres, member_fetch_ok ydl e vinfo _ hy]
            rfl
          rw [List.filterMap_cons, he1, List.filter_cons, hvu]
          simpa using hrest

/-- C10: in the multi-member path (assuming no member crashes the handler),
the output entries are the per-member results with the url-less members
dropped: a member whose metadata has no truthy `url`, `webpage_url` or `id`
contributes no entry and no reason, and the number of output entries equals
the number of members that do carry a usable url — possibly strictly fewer
than the members. -/
theorem playlist_member_silently_dropped (ydl : String → ExtractOutcome) (urlArg : String)
    (info : RawInfo) (l : List (Option RawInfo)) (e1 e2 : RawInfo) (rest : List RawInfo)
    (h1 : pyStripStr urlArg ≠ "")
    (h2 : startsWithB (pyStripStr urlArg) "http://" = true
          ∨ startsWithB (pyStripStr urlArg) "https://" = true)
    (h3 : ydl (pyStripStr urlArg) = .ok (some info))
    (h4 : info.entries = some l)
    (h5 : l.filterMap (fun x => x) = e1 :: e2 :: rest)
    (h6 : ∀ e ∈ e1 :: e2 :: rest, process_member ydl e ≠ .crashed) :
    (∃ r, extract ydl urlArg
      = .playlist (pyOrD info.title "Playlist")
          ((e1 :: e2 :: rest).filterMap (fun e => entryOpt (process_member ydl e))) r)
    ∧ (∀ e ∈ e1 :: e2 :: rest, memberVideoUrl e = none →
        entryOpt (process_member ydl e) = none)
    ∧ ((e1 :: e2 :: rest).filterMap (fun e => entryOpt (process_member ydl e))).length
        = ((e1 :: e2 :: rest).filter (fun e => (memberVideoUrl e).isSome)).length := by
  refine ⟨?_, ?_, entries_length_eq_url_count ydl (e1 :: e2 :: rest) h6⟩
  · have hx := extract_ok ydl urlArg (some info) h1 h2 h3
    rw [show extract_core ydl (some info) = entriesBranch ydl info info.entries from rfl,
      h4] at hx
    cases l with
    | nil => simp at h5
    | cons x xs =>
      rw [show entriesBranch ydl info (some (x :: xs))
          = rawEntriesBranch ydl info ((x :: xs).filterMap (fun y => y)) from rfl, h5] at hx
      refine ⟨if (e1 :: e2 :: rest).filterMap (fun e => entryOpt (process_member ydl e)) = []
              then some "All items unavailable / locked." else none, ?_⟩
      rw [hx]
      have hrb : rawEntriesBranch ydl info (e1 :: e2 :: rest)
          = match process_members ydl (e1 :: e2 :: rest) with
            | .error _ => .serverError
            | .ok out_entries =>
              .playlist (pyOrD info.title "Playlist") out_entries
                (if out_entries = [] then some "All items unavailable / locked." else none) :=
        rfl
      rw [hrb, process_members_no_crash ydl (e1 :: e2 :: rest) h6]
  · intro e he hvu
    rw [process_member_skipped ydl e hvu]
    rfl

/-- First member of the dropped-member playlist. -/
def m4a : RawInfo := .mk (some "a4") (some "A4") none none none none

/-- Middle member: no url, no webpage_url, no id — silently dropped. -/
def m4b : RawInfo := .mk none (some "B4") none none none none

/-- Third member. -/
def m4c : RawInfo := .mk (some "c4") (some "C4") none none none none

/-- Individual re-extraction result for member `a4`. -/
def v4a : RawInfo := .mk (some "a4") (some "A4") none none (some []) none

/-- Individual re-extraction result for member `c4`. -/
def v4c : RawInfo := .mk (some "c4") (some "C4") none none (some []) none

/-- Collaborator result with the id-less middle member. -/
def pl4 : RawInfo :=
  .mk none (some "PL4") none none none (some [some m4a, some m4b, some m4c])

/-- A concrete collaborator for the dropped-member scenario. -/
def ydl4 : String → ExtractOutcome := fun u =>
  if u = "https://p4" then .ok (some pl4)
  else if u = "https://www.youtube.com/watch?v=a4" then .ok (some v4a)
  else if u = "https://www.youtube.com/watch?v=c4" then .ok (some v4c)
  else .raise "unexpected url"

/-- Witness for C10: of 3 non-null members, the id-less one is dropped, so the
playlist has only 2 entries. -/
theorem playlist_member_silently_dropped_witness :
    (∃ r, extract ydl4 "https://p4"
      = .playlist "PL4"
          ([m4a, m4b, m4c].filterMap (fun e => entryOpt (process_member ydl4 e))) r)
    ∧ ([m4a, m4b, m4c].filterMap (fun e => entryOpt (process_member ydl4 e))).length = 2 := by
  have h := playlist_member_silently_dropped ydl4 "https://p4" pl4
    [some m4a, some m4b, some m4c] m4a m4b [m4c]
    (by decide) (by decide) rfl rfl rfl
    (by
      intro e he
      simp only [List.mem_cons, List.not_mem_nil, or_false] at he
      rcases he with rfl | rfl | rfl <;> decide)
  exact ⟨h.1, h.2.2.trans (by decide)⟩

end YtX
